import Mathlib

/-!
Verification of the game-state transition logic of the repository
(src/app/page.tsx, the self-playing tic-tac-toe simulator, plus the
spec-described snake engine).

The TypeScript source is shallowly embedded: JS arrays become lists,
the cell type (X, O or null) becomes `Option Player`, JS numbers that
can hold `NaN` (the stats record, which the source updates through a
dynamically interpolated key) become `JSNum`, and the three call sites of
`Math.floor(Math.random() * k)` are abstracted by a parameter
`rand : Nat → Nat` constrained by `rand k < k` where a claim needs it.
-/

namespace TicTacToe

/-- Embeds the TS union type Player (X, O or null) — the non-null part; a cell
is `Option Player`. -/
inductive Player where
  | X : Player
  | O : Player
deriving DecidableEq, Repr

/-- Embeds `type BoardState` — a list of cells, `none` is the JS `null`. -/
abbrev Cell := Option Player

abbrev Board := List Cell

/-- Embeds the TS union type GameStatus: playing, won, draw. -/
inductive GameStatus where
  | playing : GameStatus
  | won : GameStatus
  | draw : GameStatus
deriving DecidableEq, Repr

/-- A JS number as the stats record uses it: an integer, or `NaN`
(produced by `undefined + 1` when the dynamic key misses). -/
inductive JSNum where
  | int : Int → JSNum
  | nan : JSNum
deriving DecidableEq, Repr

/-- JS `a + 1` where `a` is a property read that may be `undefined` (`none`):
`undefined + n` and `NaN + n` are `NaN`. -/
def jsAdd : Option JSNum → JSNum → JSNum
  | none, _ => JSNum.nan
  | some JSNum.nan, _ => JSNum.nan
  | some (JSNum.int _), JSNum.nan => JSNum.nan
  | some (JSNum.int a), JSNum.int b => JSNum.int (a + b)

/-- Embeds `interface GameStats` — the four declared fields, plus `extra` for
properties added at runtime under a key that matches no declared field
(JS objects accept any string key). -/
structure GameStats where
  xWins : JSNum
  oWins : JSNum
  draws : JSNum
  gamesPlayed : JSNum
  extra : List (String × JSNum)
deriving DecidableEq, Repr

/-- JS property read `stats[k]`: a declared field, a dynamically added
property, or `undefined` (`none`). -/
def statsGet (s : GameStats) (k : String) : Option JSNum :=
  if k = "xWins" then some s.xWins
  else if k = "oWins" then some s.oWins
  else if k = "draws" then some s.draws
  else if k = "gamesPlayed" then some s.gamesPlayed
  else (s.extra.find? (fun kv => kv.1 = k)).map (fun kv => kv.2)

/-- JS property write `{...s, [k]: v}` for a computed key `k`. -/
def statsSet (s : GameStats) (k : String) (v : JSNum) : GameStats :=
  if k = "xWins" then { s with xWins := v }
  else if k = "oWins" then { s with oWins := v }
  else if k = "draws" then { s with draws := v }
  else if k = "gamesPlayed" then { s with gamesPlayed := v }
  else { s with extra := (k, v) :: s.extra.filter (fun kv => kv.1 ≠ k) }

/-- Embeds `interface GameMove` (player, position, timestamp). -/
structure GameMove where
  player : Player
  position : Nat
  timestamp : Int
deriving DecidableEq, Repr

/-- The string a `Player` interpolates to in a template literal. -/
def playerName : Player → String
  | Player.X => "X"
  | Player.O => "O"

/-- The ternary `player === X ? O : X` of the source. -/
def oppPlayer (p : Player) : Player :=
  if p = Player.X then Player.O else Player.X

/-- The 8 fixed `winningCombinations` (rows, columns, diagonals). -/
def winningCombinations : List (Nat × Nat × Nat) :=
  [(0, 1, 2), (3, 4, 5), (6, 7, 8),
   (0, 3, 6), (1, 4, 7), (2, 5, 8),
   (0, 4, 8), (2, 4, 6)]

/-- The `for (const [a, b, c] of winningCombinations)` loop of `checkWinner`:
`board[a] && board[a] === board[b] && board[a] === board[c]` returns
`{ winner: board[a], line: [a, b, c] }`, else the loop continues. -/
def checkWinnerAux (board : Board) : List (Nat × Nat × Nat) → Option Player × List Nat
  | [] => (none, [])
  | (a, b, c) :: rest =>
    if board.getD a none ≠ none ∧ board.getD a none = board.getD b none ∧
        board.getD a none = board.getD c none then
      (board.getD a none, [a, b, c])
    else
      checkWinnerAux board rest

/-- Embeds `checkWinner(board)`: the first winning combination found, else a
null winner with an empty line. -/
def checkWinner (board : Board) : Option Player × List Nat :=
  checkWinnerAux board winningCombinations

/-- Embeds `checkDraw(board)`: every cell non-null and no winner. -/
def checkDraw (board : Board) : Bool :=
  board.all (fun cell => cell ≠ none) && (checkWinner board).1 = none

/-- Embeds `getAvailableMoves(board)`: the source maps each cell to its index if
null else -1, then filters out the -1 sentinels — i.e. the indices of the
null cells in ascending order. -/
def getAvailableMoves (board : Board) : List Nat :=
  (List.range board.length).filter (fun i => board.getD i none = none)

/-- One win-probe loop of `makeAIMove`: for each available move, copy the
board, place `p`, and return that move if `checkWinner` reports `p`. -/
def findWinningMove (board : Board) (p : Player) (availableMoves : List Nat) : Option Nat :=
  availableMoves.find? (fun move => (checkWinner (board.set move (some p))).1 = some p)

/-- Embeds `makeAIMove(board, player)`.  `rand k` stands for the value of
`Math.floor(Math.random() * k)` at whichever of the three random call
sites executes (at most one per call). -/
def makeAIMove (rand : Nat → Nat) (board : Board) (player : Player) : Int :=
  let availableMoves := getAvailableMoves board
  if availableMoves.length = 0 then -1
  else
    match findWinningMove board player availableMoves with
    | some move => (move : Int)
    | none =>
      match findWinningMove board (oppPlayer player) availableMoves with
      | some move => (move : Int)
      | none =>
        if player = Player.X then
          if 4 ∈ availableMoves then (4 : Int)
          else
            let corners := [0, 2, 6, 8].filter (fun corner => corner ∈ availableMoves)
            if corners.length > 0 then (corners.getD (rand corners.length) 0 : Int)
            else (availableMoves.getD (rand availableMoves.length) 0 : Int)
        else
          let edges := [1, 3, 5, 7].filter (fun edge => edge ∈ availableMoves)
          if edges.length > 0 then (edges.getD (rand edges.length) 0 : Int)
          else (availableMoves.getD (rand availableMoves.length) 0 : Int)

/-- The full tic-tac-toe engine state (the React state hooks that the
transition logic reads and writes). -/
structure GameState where
  board : Board
  currentPlayer : Player
  status : GameStatus
  winner : Option Player
  winningLine : List Nat
  stats : GameStats
  moveHistory : List GameMove
deriving DecidableEq, Repr

/-- The stats update of the win branch of `makeMove`:
`{...prev, [`${newWinner}Wins`]: prev[`${newWinner}Wins`] + 1, gamesPlayed: prev.gamesPlayed + 1}`.
The computed key is `"XWins"` or `"OWins"` (capital letter). -/
def recordWin (prev : GameStats) (w : Player) : GameStats :=
  let key := playerName w ++ "Wins"
  let s1 := statsSet prev key (jsAdd (statsGet prev key) (JSNum.int 1))
  { s1 with gamesPlayed := jsAdd (some prev.gamesPlayed) (JSNum.int 1) }

/-- The stats update of the draw branch of `makeMove`. -/
def recordDraw (prev : GameStats) : GameStats :=
  { prev with
    draws := jsAdd (some prev.draws) (JSNum.int 1),
    gamesPlayed := jsAdd (some prev.gamesPlayed) (JSNum.int 1) }

/-- Embeds `makeMove(player)`: pick a move; if -1 return unchanged; otherwise set
the cell, append to history (with `now` for `Date.now()`), then either
record a win, record a draw, or flip `currentPlayer`. -/
def makeMove (rand : Nat → Nat) (now : Int) (player : Player) (s : GameState) : GameState :=
  let moveIndex := makeAIMove rand s.board player
  if moveIndex = -1 then s
  else
    let newBoard := s.board.set moveIndex.toNat (some player)
    let newHistory := s.moveHistory ++ [⟨player, moveIndex.toNat, now⟩]
    let res := checkWinner newBoard
    match res.1 with
    | some w =>
      { s with
        board := newBoard, moveHistory := newHistory,
        winner := some w, status := GameStatus.won, winningLine := res.2,
        stats := recordWin s.stats w }
    | none =>
      if checkDraw newBoard then
        { s with
          board := newBoard, moveHistory := newHistory,
          status := GameStatus.draw, stats := recordDraw s.stats }
      else
        { s with
          board := newBoard, moveHistory := newHistory,
          currentPlayer := oppPlayer player }

/-- Embeds `resetGame()`: fresh board, turn, status, winner, line and history;
stats untouched. -/
def resetGame (s : GameState) : GameState :=
  { s with
    board := List.replicate 9 none,
    currentPlayer := Player.X,
    status := GameStatus.playing,
    winner := none,
    winningLine := [],
    moveHistory := [] }

/-- Embeds `resetStats()`. -/
def resetStats (s : GameState) : GameState :=
  { s with stats := ⟨JSNum.int 0, JSNum.int 0, JSNum.int 0, JSNum.int 0, []⟩ }

/-- The initial values of the state hooks. -/
def initialState : GameState :=
  { board := List.replicate 9 none,
    currentPlayer := Player.X,
    status := GameStatus.playing,
    winner := none,
    winningLine := [],
    stats := ⟨JSNum.int 0, JSNum.int 0, JSNum.int 0, JSNum.int 0, []⟩,
    moveHistory := [] }

/-- States reachable by the component: the initial state, a `makeMove` for
the current player while the game is playing (the auto-play effect), and
`resetGame` at any time (restart button / auto-restart effect). -/
inductive Reachable : GameState → Prop
  | init : Reachable initialState
  | step (rand : Nat → Nat) (now : Int) (s : GameState) :
      Reachable s → s.status = GameStatus.playing →
      Reachable (makeMove rand now s.currentPlayer s)
  | reset (s : GameState) : Reachable s → Reachable (resetGame s)

/-- Replaying a move history onto a board: set each recorded position to the
recorded player, in order. -/
def replayBoard (hist : List GameMove) (b : Board) : Board :=
  hist.foldl (fun acc mv => acc.set mv.position (some mv.player)) b

/-- A board with a completed top row of X, used as a concrete test input. -/
def winRow : Board :=
  [some Player.X, some Player.X, some Player.X, none, none, none, none, none, none]

/-- A state in which X wins by playing cell 2 (the win-in-one rule picks it). -/
def winDemoState : GameState :=
  { initialState with
    board := [some Player.X, some Player.X, none,
              some Player.O, some Player.O, none, none, none, none] }

/-- A state whose board is completely filled. -/
def fullBoardState : GameState :=
  { initialState with
    board := [some Player.X, some Player.O, some Player.X,
              some Player.X, some Player.O, some Player.O,
              some Player.O, some Player.X, some Player.X],
    status := GameStatus.draw }

end TicTacToe

namespace Snake

/-- One of {UP, DOWN, LEFT, RIGHT}. -/
inductive Dir where
  | up : Dir
  | down : Dir
  | left : Dir
  | right : Dir
deriving DecidableEq, Repr

/-- The direct reverse of a direction. -/
def reverseDir : Dir → Dir
  | Dir.up => Dir.down
  | Dir.down => Dir.up
  | Dir.left => Dir.right
  | Dir.right => Dir.left

/-- Grid coordinate (integer x,y pair). -/
abbrev Pos := Int × Int

/-- One-unit offset in a direction. -/
def dirOffset : Dir → Pos
  | Dir.up => (0, -1)
  | Dir.down => (0, 1)
  | Dir.left => (-1, 0)
  | Dir.right => (1, 0)

/-- Offsetting a cell by one unit in a direction. -/
def stepPos (p : Pos) (d : Dir) : Pos :=
  (p.1 + (dirOffset d).1, p.2 + (dirOffset d).2)

/-- Modelled from the spec: the effective direction of a tick — the pending
direction unless it directly reverses the current one, in which case the
current direction is kept (§4.1). -/
def effectiveDir (current pending : Dir) : Dir :=
  if pending = reverseDir current then current else pending

/-- Modelled from the spec: the Snake Engine state snapshot of §3 (the snake
source file is not in the repository snapshot; §3/§4.1 define it). -/
structure SnakeState where
  snake : List Pos
  food : Pos
  direction : Dir
  score : Nat
  gameOver : Bool
  isPaused : Bool
deriving DecidableEq, Repr

/-- A cell lies outside the grid bounds `[0, gridSize)` on either axis. -/
def outOfBounds (gridSize : Nat) (p : Pos) : Bool :=
  p.1 < 0 || p.1 ≥ (gridSize : Int) || p.2 < 0 || p.2 ≥ (gridSize : Int)

/-- Modelled from the spec: `tick(state, pendingDirection)` of §4.1 (the snake
source file is not in the repository snapshot).  A no-op when `gameOver` or
`isPaused`; otherwise the effective direction is `pending` unless it directly
reverses the current one; the new head is the old head offset one unit; going
out of bounds or onto the pre-move body terminates the game; eating the food
adds `reward` to the score, places `fresh` (abstracting the rejection-sampled
food generator) and keeps the tail; otherwise the tail cell is removed. -/
def tick (gridSize reward : Nat) (fresh : Pos) (s : SnakeState) (pending : Dir) : SnakeState :=
  if s.gameOver || s.isPaused then s
  else
    match s.snake with
    | [] => s
    | head :: _ =>
      let eff := effectiveDir s.direction pending
      let newHead := stepPos head eff
      if outOfBounds gridSize newHead || newHead ∈ s.snake then
        { s with gameOver := true }
      else if newHead = s.food then
        { s with snake := newHead :: s.snake, score := s.score + reward,
                 food := fresh, direction := eff }
      else
        { s with snake := (newHead :: s.snake).dropLast, direction := eff }

end Snake

namespace TicTacToe

/-! Helper lemmas and sanity checks about the embedded definitions. -/

example : checkWinner [some Player.X, some Player.X, some Player.X,
    none, none, none, none, none, none] = (some Player.X, [0, 1, 2]) := by decide

example : makeAIMove (fun _ => 0) [some Player.X, some Player.X, none,
    none, none, none, none, none, none] Player.O = 2 := by decide

example : getAvailableMoves [some Player.X, none, some Player.O, none, none,
    none, none, none, none] = [1, 3, 4, 5, 6, 7, 8] := by decide

theorem mem_getAvailableMoves {board : Board} {i : Nat} :
    i ∈ getAvailableMoves board ↔ i < board.length ∧ board.getD i none = none := by
  simp [getAvailableMoves, List.mem_filter, List.mem_range]

theorem getAvailableMoves_pairwise (board : Board) :
    (getAvailableMoves board).Pairwise (· < ·) :=
  List.Pairwise.filter _ (List.pairwise_lt_range board.length)

theorem getD_mem_of_lt {l : List Nat} {r : Nat} (h : r < l.length) : l.getD r 0 ∈ l := by
  rw [List.getD_eq_getElem?_getD, List.getElem?_eq_getElem h]
  exact List.getElem_mem h

theorem find_first_sorted {p : Nat → Bool} :
    ∀ {l : List Nat}, l.Pairwise (· < ·) → ∀ {m : Nat}, m ∈ l → p m = true →
      (∀ k ∈ l, p k = true → m ≤ k) → l.find? p = some m := by
  intro l
  induction l with
  | nil => intro _ m hm; exact absurd hm (List.not_mem_nil m)
  | cons a t ih =>
    intro hpw m hm hpm hmin
    rcases List.pairwise_cons.1 hpw with ⟨hat, hpt⟩
    by_cases hpa : p a = true
    · have ham : m ≤ a := hmin a (List.mem_cons_self a t) hpa
      have hma : m = a := by
        rcases List.mem_cons.1 hm with h | h
        · exact h
        · exact absurd (hat m h) (not_lt.2 ham)
      rw [List.find?_cons_of_pos _ hpa, hma]
    · have hm2 : m ∈ t := by
        rcases List.mem_cons.1 hm with h | h
        · rw [h] at hpm; exact absurd hpm hpa
        · exact h
      rw [List.find?_cons_of_neg _ hpa]
      exact ih hpt hm2 hpm fun k hk hpk => hmin k (List.mem_cons_of_mem a hk) hpk

theorem checkWinnerAux_eq_some {board : Board} {w : Player} {line : List Nat} :
    ∀ {combos : List (Nat × Nat × Nat)},
      checkWinnerAux board combos = (some w, line) →
      ∃ a b c, (a, b, c) ∈ combos ∧ line = [a, b, c] ∧
        board.getD a none = some w ∧ board.getD b none = some w ∧
        board.getD c none = some w := by
  intro combos
  induction combos with
  | nil =>
    intro h
    simp [checkWinnerAux] at h
  | cons hd rest ih =>
    obtain ⟨a, b, c⟩ := hd
    intro h
    by_cases hcond : board.getD a none ≠ none ∧ board.getD a none = board.getD b none ∧
        board.getD a none = board.getD c none
    · rw [checkWinnerAux, if_pos hcond, Prod.mk.injEq] at h
      obtain ⟨h1, h2⟩ := h
      refine ⟨a, b, c, List.mem_cons_self _ _, h2.symm, h1, ?_, ?_⟩
      · rw [← hcond.2.1]; exact h1
      · rw [← hcond.2.2]; exact h1
    · rw [checkWinnerAux, if_neg hcond] at h
      obtain ⟨a2, b2, c2, hmem, hrest⟩ := ih h
      exact ⟨a2, b2, c2, List.mem_cons_of_mem _ hmem, hrest⟩

/-- Claim C2: `evaluate` (checkWinner together with checkDraw) never reports
both a won and a draw outcome, and the winningLine of a won outcome is exactly
3 indices from the 8 fixed winning combinations, all holding the mark of the
winner. -/
theorem ttt_evaluate_exclusive_sound (board : Board) (_h9 : board.length = 9) :
    (checkDraw board = true → (checkWinner board).1 = none) ∧
    ∀ w, (checkWinner board).1 = some w →
      (checkWinner board).2.length = 3 ∧
      (∃ combo ∈ winningCombinations,
        (checkWinner board).2 = [combo.1, combo.2.1, combo.2.2]) ∧
      ∀ i ∈ (checkWinner board).2, board.getD i none = some w := by
  constructor
  · intro hd
    simp [checkDraw] at hd
    exact hd.2
  · intro w hw
    have hpair : checkWinner board = (some w, (checkWinner board).2) := by
      rw [← hw]
    obtain ⟨a, b, c, hmem, hline, ha, hb, hc⟩ := checkWinnerAux_eq_some hpair
    refine ⟨by rw [hline]; rfl, ⟨(a, b, c), hmem, by rw [hline]⟩, ?_⟩
    intro i hi
    rw [hline] at hi
    simp only [List.mem_cons, List.not_mem_nil, or_false] at hi
    rcases hi with rfl | rfl | rfl
    · exact ha
    · exact hb
    · exact hc

/-- Witness for C2 at the board with a completed top row of X. -/
theorem ttt_evaluate_exclusive_sound_witness :
    (checkWinner winRow).2.length = 3 ∧ winRow.getD 0 none = some Player.X :=
  ⟨((ttt_evaluate_exclusive_sound winRow (by decide)).2 Player.X (by decide)).1,
   ((ttt_evaluate_exclusive_sound winRow (by decide)).2 Player.X (by decide)).2.2
     0 (by decide)⟩

theorem makeAIMove_spec (rand : Nat → Nat) (board : Board) (player : Player)
    (hrand : ∀ k, 0 < k → rand k < k) :
    (getAvailableMoves board = [] ∧ makeAIMove rand board player = -1) ∨
    (∃ m ∈ getAvailableMoves board, makeAIMove rand board player = (m : Int)) := by
  by_cases h0 : getAvailableMoves board = []
  · exact Or.inl ⟨h0, by simp [makeAIMove, h0]⟩
  · right
    have hlen : ¬ (getAvailableMoves board).length = 0 := by
      simpa [List.length_eq_zero] using h0
    cases hw : findWinningMove board player (getAvailableMoves board) with
    | some m => exact ⟨m, List.mem_of_find?_eq_some hw, by simp [makeAIMove, hlen, hw]⟩
    | none =>
      cases hb : findWinningMove board (oppPlayer player) (getAvailableMoves board) with
      | some m => exact ⟨m, List.mem_of_find?_eq_some hb, by simp [makeAIMove, hlen, hw, hb]⟩
      | none =>
        have hpos : 0 < (getAvailableMoves board).length := Nat.pos_of_ne_zero hlen
        have hfall := getD_mem_of_lt (hrand _ hpos)
        by_cases hX : player = Player.X
        · subst hX
          by_cases h4 : 4 ∈ getAvailableMoves board
          · exact ⟨4, h4, by simp [makeAIMove, hlen, hw, hb, h4]⟩
          · by_cases hc :
                ([0, 2, 6, 8].filter (fun c => c ∈ getAvailableMoves board)).length > 0
            · have hmemc := getD_mem_of_lt (hrand _ hc)
              have hmav :
                  ([0, 2, 6, 8].filter (fun c => c ∈ getAvailableMoves board)).getD
                    (rand ([0, 2, 6, 8].filter
                      (fun c => c ∈ getAvailableMoves board)).length) 0
                    ∈ getAvailableMoves board := by
                simpa using (List.mem_filter.1 hmemc).2
              exact ⟨_, hmav, by simp [makeAIMove, hlen, hw, hb, h4, hc]⟩
            · exact ⟨_, hfall, by simp [makeAIMove, hlen, hw, hb, h4, hc]⟩
        · by_cases he :
              ([1, 3, 5, 7].filter (fun e => e ∈ getAvailableMoves board)).length > 0
          · have hmeme := getD_mem_of_lt (hrand _ he)
            have hmav :
                ([1, 3, 5, 7].filter (fun e => e ∈ getAvailableMoves board)).getD
                  (rand ([1, 3, 5, 7].filter
                    (fun e => e ∈ getAvailableMoves board)).length) 0
                  ∈ getAvailableMoves board := by
              simpa using (List.mem_filter.1 hmeme).2
            exact ⟨_, hmav, by simp [makeAIMove, hlen, hw, hb, hX, he]⟩
          · exact ⟨_, hfall, by simp [makeAIMove, hlen, hw, hb, hX, he]⟩

/-- Claim C3: the move policy tries win-in-one first (first winning empty cell
in ascending index order), then block-the-opponent; on [X,X,_,...] with O to
move it returns index 2. -/
theorem ttt_policy_precedence (rand : Nat → Nat) (board : Board) (player : Player)
    (m : Nat) :
    ((m ∈ getAvailableMoves board ∧
      (checkWinner (board.set m (some player))).1 = some player ∧
      ∀ k ∈ getAvailableMoves board,
        (checkWinner (board.set k (some player))).1 = some player → m ≤ k) →
      makeAIMove rand board player = (m : Int)) ∧
    ((∀ k ∈ getAvailableMoves board,
        (checkWinner (board.set k (some player))).1 ≠ some player) →
     (m ∈ getAvailableMoves board ∧
      (checkWinner (board.set m (some (oppPlayer player)))).1 = some (oppPlayer player) ∧
      ∀ k ∈ getAvailableMoves board,
        (checkWinner (board.set k (some (oppPlayer player)))).1 = some (oppPlayer player) →
          m ≤ k) →
      makeAIMove rand board player = (m : Int)) ∧
    makeAIMove rand [some Player.X, some Player.X, none,
      none, none, none, none, none, none] Player.O = 2 := by
  refine ⟨?_, ?_, ?_⟩
  · rintro ⟨hm, hwin, hmin⟩
    have hlen : ¬ (getAvailableMoves board).length = 0 := by
      intro h
      rw [List.length_eq_zero] at h
      rw [h] at hm
      exact absurd hm (List.not_mem_nil m)
    have hfw : findWinningMove board player (getAvailableMoves board) = some m := by
      apply find_first_sorted (getAvailableMoves_pairwise board) hm (by simpa using hwin)
      intro k hk hpk
      exact hmin k hk (by simpa using hpk)
    simp [makeAIMove, hlen, hfw]
  · rintro hnw ⟨hm, hwin, hmin⟩
    have hlen : ¬ (getAvailableMoves board).length = 0 := by
      intro h
      rw [List.length_eq_zero] at h
      rw [h] at hm
      exact absurd hm (List.not_mem_nil m)
    have hfw : findWinningMove board player (getAvailableMoves board) = none := by
      apply List.find?_eq_none.2
      intro k hk
      simpa using hnw k hk
    have hfb : findWinningMove board (oppPlayer player) (getAvailableMoves board)
        = some m := by
      apply find_first_sorted (getAvailableMoves_pairwise board) hm (by simpa using hwin)
      intro k hk hpk
      exact hmin k hk (by simpa using hpk)
    simp [makeAIMove, hlen, hfw, hfb]
  · rfl

/-- Witness for C3: on [X,X,_,O,O,_,_,_,_], X has a win-in-one at index 2. -/
theorem ttt_policy_precedence_witness :
    makeAIMove (fun _ => 0) winDemoState.board Player.X = 2 :=
  (ttt_policy_precedence (fun _ => 0) winDemoState.board Player.X 2).1
    ⟨by decide, by decide, by decide⟩

/-- Claim C4: the move policy returns -1 iff the board has no empty cell, and
any returned cell index is empty on the input board. -/
theorem ttt_policy_none_iff_full (rand : Nat → Nat) (board : Board) (player : Player)
    (hrand : ∀ k, 0 < k → rand k < k) :
    (makeAIMove rand board player = -1 ↔
      ∀ i, i < board.length → board.getD i none ≠ none) ∧
    ∀ m : Nat, makeAIMove rand board player = (m : Int) → board.getD m none = none := by
  have hspec := makeAIMove_spec rand board player hrand
  constructor
  · constructor
    · intro hres i hi hni
      have hmem : i ∈ getAvailableMoves board := mem_getAvailableMoves.2 ⟨hi, hni⟩
      rcases hspec with ⟨hnil, _⟩ | ⟨m, _, hres2⟩
      · rw [hnil] at hmem
        exact absurd hmem (List.not_mem_nil i)
      · rw [hres] at hres2
        omega
    · intro hfull
      have hnil : getAvailableMoves board = [] := by
        rw [List.eq_nil_iff_forall_not_mem]
        intro i hi
        rcases mem_getAvailableMoves.1 hi with ⟨hlt, hnone⟩
        exact hfull i hlt hnone
      simp [makeAIMove, hnil]
  · intro m hres
    rcases hspec with ⟨_, hres2⟩ | ⟨m2, hm2, hres2⟩
    · rw [hres] at hres2
      omega
    · rw [hres] at hres2
      have hmm : m = m2 := by exact_mod_cast hres2
      subst hmm
      exact (mem_getAvailableMoves.1 hm2).2

/-- Witness for C4 on a full board: the policy reports -1. -/
theorem ttt_policy_none_iff_full_witness :
    makeAIMove (fun _ => 0) fullBoardState.board Player.X = -1 :=
  ((ttt_policy_none_iff_full (fun _ => 0) fullBoardState.board Player.X
      (fun _ hk => hk)).1).2 (by decide)

/-- Claim C5: with no win-in-one and no block available, X takes the center if
empty, else some empty corner if one exists; O takes some empty edge if one
exists; with the preference set exhausted the policy still returns some empty
cell. -/
theorem ttt_policy_positional (rand : Nat → Nat) (board : Board) (player : Player)
    (hrand : ∀ k, 0 < k → rand k < k)
    (hnw : ∀ k ∈ getAvailableMoves board,
      (checkWinner (board.set k (some player))).1 ≠ some player)
    (hnb : ∀ k ∈ getAvailableMoves board,
      (checkWinner (board.set k (some (oppPlayer player)))).1 ≠ some (oppPlayer player)) :
    (player = Player.X → 4 ∈ getAvailableMoves board →
      makeAIMove rand board player = 4) ∧
    (player = Player.X → ¬ 4 ∈ getAvailableMoves board →
      [0, 2, 6, 8].filter (fun c => c ∈ getAvailableMoves board) ≠ [] →
      ∃ c ∈ ([0, 2, 6, 8] : List Nat), board.getD c none = none ∧
        makeAIMove rand board player = (c : Int)) ∧
    (player = Player.O →
      [1, 3, 5, 7].filter (fun e => e ∈ getAvailableMoves board) ≠ [] →
      ∃ e ∈ ([1, 3, 5, 7] : List Nat), board.getD e none = none ∧
        makeAIMove rand board player = (e : Int)) ∧
    ((player = Player.X →
        ¬ 4 ∈ getAvailableMoves board ∧
        [0, 2, 6, 8].filter (fun c => c ∈ getAvailableMoves board) = []) →
     (player = Player.O →
        [1, 3, 5, 7].filter (fun e => e ∈ getAvailableMoves board) = []) →
     getAvailableMoves board ≠ [] →
      ∃ m ∈ getAvailableMoves board, makeAIMove rand board player = (m : Int)) := by
  have hfw : findWinningMove board player (getAvailableMoves board) = none := by
    apply List.find?_eq_none.2
    intro k hk
    simpa using hnw k hk
  have hfb : findWinningMove board (oppPlayer player) (getAvailableMoves board)
      = none := by
    apply List.find?_eq_none.2
    intro k hk
    simpa using hnb k hk
  refine ⟨?_, ?_, ?_, ?_⟩
  · intro hX h4
    subst hX
    have hlen : ¬ (getAvailableMoves board).length = 0 := by
      intro h
      rw [List.length_eq_zero] at h
      rw [h] at h4
      exact absurd h4 (List.not_mem_nil 4)
    simp [makeAIMove, hlen, hfw, hfb, h4]
  · intro hX h4 hcne
    subst hX
    have hc : 0 < ([0, 2, 6, 8].filter (fun c => c ∈ getAvailableMoves board)).length :=
      List.length_pos.2 hcne
    have hmemc := getD_mem_of_lt (hrand _ hc)
    have hc48 := (List.mem_filter.1 hmemc).1
    have hmav : ([0, 2, 6, 8].filter (fun c => c ∈ getAvailableMoves board)).getD
        (rand ([0, 2, 6, 8].filter (fun c => c ∈ getAvailableMoves board)).length) 0
        ∈ getAvailableMoves board := by
      simpa using (List.mem_filter.1 hmemc).2
    have hlen : ¬ (getAvailableMoves board).length = 0 := by
      intro h
      rw [List.length_eq_zero] at h
      rw [h] at hmav
      exact absurd hmav (List.not_mem_nil _)
    exact ⟨_, hc48, (mem_getAvailableMoves.1 hmav).2,
      by simp [makeAIMove, hlen, hfw, hfb, h4, hc]⟩
  · intro hO hene
    have hXne : ¬ player = Player.X := by
      rw [hO]
      intro h
      cases h
    have he : 0 < ([1, 3, 5, 7].filter (fun e => e ∈ getAvailableMoves board)).length :=
      List.length_pos.2 hene
    have hmeme := getD_mem_of_lt (hrand _ he)
    have he57 := (List.mem_filter.1 hmeme).1
    have hmav : ([1, 3, 5, 7].filter (fun e => e ∈ getAvailableMoves board)).getD
        (rand ([1, 3, 5, 7].filter (fun e => e ∈ getAvailableMoves board)).length) 0
        ∈ getAvailableMoves board := by
      simpa using (List.mem_filter.1 hmeme).2
    have hlen : ¬ (getAvailableMoves board).length = 0 := by
      intro h
      rw [List.length_eq_zero] at h
      rw [h] at hmav
      exact absurd hmav (List.not_mem_nil _)
    exact ⟨_, he57, (mem_getAvailableMoves.1 hmav).2,
      by simp [makeAIMove, hlen, hfw, hfb, hXne, he]⟩
  · intro _ _ hne
    rcases makeAIMove_spec rand board player hrand with ⟨hnil, _⟩ | hmem
    · exact absurd hnil hne
    · exact hmem

/-- Witness for C5: on the empty board, X (no win, no block) takes the center. -/
theorem ttt_policy_positional_witness :
    makeAIMove (fun _ => 0) initialState.board Player.X = 4 :=
  ((ttt_policy_positional (fun _ => 0) initialState.board Player.X
      (fun _ hk => hk) (by decide) (by decide)).1) rfl (by decide)

theorem replayBoard_append_one (hist : List GameMove) (b : Board) (mv : GameMove) :
    replayBoard (hist ++ [mv]) b = (replayBoard hist b).set mv.position (some mv.player) := by
  simp [replayBoard, List.foldl_append]

theorem makeMove_board_history (rand : Nat → Nat) (now : Int) (player : Player)
    (s : GameState) :
    makeMove rand now player s = s ∨
    ((makeMove rand now player s).board =
        s.board.set (makeAIMove rand s.board player).toNat (some player) ∧
      (makeMove rand now player s).moveHistory =
        s.moveHistory ++ [⟨player, (makeAIMove rand s.board player).toNat, now⟩]) := by
  by_cases hmi : makeAIMove rand s.board player = -1
  · left
    simp [makeMove, hmi]
  · right
    constructor
    · simp only [makeMove]
      rw [if_neg hmi]
      split
      all_goals try rfl
      all_goals split <;> rfl
    · simp only [makeMove]
      rw [if_neg hmi]
      split
      all_goals try rfl
      all_goals split <;> rfl

/-- Claim C6: for every reachable state, replaying the move history in order
from the empty board reproduces the current board. -/
theorem ttt_history_replays_board (s : GameState) (h : Reachable s) :
    replayBoard s.moveHistory (List.replicate 9 none) = s.board := by
  induction h with
  | init => rfl
  | step rand now t hR hst ih =>
    rcases makeMove_board_history rand now t.currentPlayer t with heq | ⟨hb, hh⟩
    · rw [heq]
      exact ih
    · rw [hb, hh, replayBoard_append_one, ih]
  | reset t hR ih => rfl

/-- Witness for C6 at the initial state. -/
theorem ttt_history_replays_board_witness :
    replayBoard initialState.moveHistory (List.replicate 9 none) = initialState.board :=
  ttt_history_replays_board initialState Reachable.init

/-- Claim C8: a move that leaves the board neither won nor drawn flips
currentPlayer; a move that ends in a win or a draw leaves it unchanged. -/
theorem ttt_flip_nonterminal (rand : Nat → Nat) (now : Int) (s : GameState)
    (hmi : makeAIMove rand s.board s.currentPlayer ≠ -1) :
    ((checkWinner (s.board.set (makeAIMove rand s.board s.currentPlayer).toNat
        (some s.currentPlayer))).1 = none →
      checkDraw (s.board.set (makeAIMove rand s.board s.currentPlayer).toNat
        (some s.currentPlayer)) = false →
      (makeMove rand now s.currentPlayer s).currentPlayer = oppPlayer s.currentPlayer) ∧
    (((checkWinner (s.board.set (makeAIMove rand s.board s.currentPlayer).toNat
        (some s.currentPlayer))).1 ≠ none ∨
      checkDraw (s.board.set (makeAIMove rand s.board s.currentPlayer).toNat
        (some s.currentPlayer)) = true) →
      (makeMove rand now s.currentPlayer s).currentPlayer = s.currentPlayer) := by
  constructor
  · intro hw hd
    simp [makeMove, hmi, hw, hd]
  · intro hwd
    rcases hwd with hw | hd
    · rcases Option.ne_none_iff_exists.1 hw with ⟨w, hw2⟩
      simp [makeMove, hmi, hw2.symm]
    · cases hcw : (checkWinner (s.board.set
          (makeAIMove rand s.board s.currentPlayer).toNat (some s.currentPlayer))).1 with
      | some w => simp [makeMove, hmi, hcw]
      | none => simp [makeMove, hmi, hcw, hd]

/-- Witness for C8: the first move from the initial state flips X to O. -/
theorem ttt_flip_nonterminal_witness :
    (makeMove (fun _ => 0) 0 initialState.currentPlayer initialState).currentPlayer
      = oppPlayer initialState.currentPlayer :=
  (ttt_flip_nonterminal (fun _ => 0) 0 initialState (by decide)).1
    (by decide) (by decide)

/-- Claim C10: on a full board the move policy returns -1 and `makeMove`
returns the state unchanged in every field. -/
theorem ttt_full_board_noop (rand : Nat → Nat) (now : Int) (player : Player)
    (s : GameState) (h : ∀ c ∈ s.board, c ≠ none) :
    makeMove rand now player s = s := by
  have hnil : getAvailableMoves s.board = [] := by
    rw [List.eq_nil_iff_forall_not_mem]
    intro i hi
    rcases mem_getAvailableMoves.1 hi with ⟨hlt, hnone⟩
    have hget : s.board.getD i none = s.board[i] := by
      rw [List.getD_eq_getElem?_getD, List.getElem?_eq_getElem hlt]
      rfl
    exact h s.board[i] (List.getElem_mem hlt) (by rw [← hget]; exact hnone)
  have hmi : makeAIMove rand s.board player = -1 := by
    simp [makeAIMove, hnil]
  simp [makeMove, hmi]

/-- Witness for C10 at a concrete full board. -/
theorem ttt_full_board_noop_witness :
    makeMove (fun _ => 0) 0 Player.X fullBoardState = fullBoardState :=
  ttt_full_board_noop (fun _ => 0) 0 Player.X fullBoardState (by decide)

/-- Claim C1 (evidence of the code bug): when X completes a winning line, the
win branch updates the stats record under the interpolated key "XWins"
(capital X), which matches no declared counter: `xWins` stays at 0, a stray
"XWins" property holding NaN appears, and `gamesPlayed` is incremented. -/
theorem ttt_stats_win_counter_not_incremented :
    (makeMove (fun _ => 0) 0 Player.X winDemoState).winner = some Player.X ∧
    (makeMove (fun _ => 0) 0 Player.X winDemoState).status = GameStatus.won ∧
    (makeMove (fun _ => 0) 0 Player.X winDemoState).stats.xWins =
      winDemoState.stats.xWins ∧
    (makeMove (fun _ => 0) 0 Player.X winDemoState).stats.xWins = JSNum.int 0 ∧
    (makeMove (fun _ => 0) 0 Player.X winDemoState).stats.gamesPlayed = JSNum.int 1 ∧
    (makeMove (fun _ => 0) 0 Player.X winDemoState).stats.extra =
      [("XWins", JSNum.nan)] := by
  decide

/-- Claim C7: `resetGame` clears board (9 empty cells), history, winningLine,
sets status to playing, winner to none, currentPlayer to X, and leaves the
stats record unchanged. -/
theorem ttt_reset_frame (s : GameState) :
    (resetGame s).board = List.replicate 9 none ∧
    (resetGame s).moveHistory = [] ∧
    (resetGame s).winningLine = [] ∧
    (resetGame s).status = GameStatus.playing ∧
    (resetGame s).winner = none ∧
    (resetGame s).currentPlayer = Player.X ∧
    (resetGame s).stats = s.stats :=
  ⟨rfl, rfl, rfl, rfl, rfl, rfl, rfl⟩

end TicTacToe

namespace Snake

example : tick 20 10 (3, 3)
    { snake := [((10 : Int), (10 : Int))], food := (5, 5), direction := Dir.right,
      score := 0, gameOver := false, isPaused := false } Dir.right =
    { snake := [((11 : Int), (10 : Int))], food := (5, 5), direction := Dir.right,
      score := 0, gameOver := false, isPaused := false } := by decide

/-- Claim C9: one tick either sets gameOver, or keeps the snake length, or
grows it by exactly one; it never shrinks the snake and never grows it by
more than one. -/
theorem snake_tick_length (gridSize reward : Nat) (fresh : Pos) (s : SnakeState)
    (pending : Dir) :
    (tick gridSize reward fresh s pending).gameOver = true ∨
    (tick gridSize reward fresh s pending).snake.length = s.snake.length ∨
    (tick gridSize reward fresh s pending).snake.length = s.snake.length + 1 := by
  unfold tick
  split
  · right; left; rfl
  · split
    · right; left; rfl
    · dsimp only
      split
      · left; rfl
      · split
        · right; right; simp
        · right; left; simp

end Snake
